import Mathlib

/-!
Verification of the approval lifecycle core of the Jenkins/Telegram approval
bot (`src/src/handlers/api_handler.py`, `src/src/services/database_service.py`).

The Python code is shallowly embedded: each handler-level operation becomes a
pure Lean function on an explicit state record.  Mutable dictionaries
(`pending_approvals`, `_approval_events`) become association lists, Python sets
(`_stopped_reminders`, `_processing_approvals`, `reminder_timers`) become
lists-as-sets, and background threads are modelled as functions of observation
traces (one observation per point where the thread reads shared state).
External collaborators (`permission_service`, clock) are passed as parameters.
-/

namespace JenkinsApproval

/-- Association-list lookup keyed by strings (Python `dict[key]` / `in`). -/
def lookupA {α : Type} (m : List (String × α)) (k : String) : Option α :=
  match m with
  | [] => none
  | (k', v) :: rest => if k' = k then some v else lookupA rest k

/-- Association-list update/insert (Python `dict[key] = value`). -/
def updA {α : Type} (m : List (String × α)) (k : String) (v : α) :
    List (String × α) :=
  match m with
  | [] => [(k, v)]
  | (k', v') :: rest => if k' = k then (k, v) :: rest else (k', v') :: updA rest k v

/-- Association-list deletion (Python `del dict[key]`). -/
def delA {α : Type} (m : List (String × α)) (k : String) : List (String × α) :=
  m.filter (fun p => p.1 ≠ k)

/-- Set insertion (Python `set.add`). -/
def insS (l : List String) (x : String) : List String :=
  if x ∈ l then l else x :: l

/-- Set removal (Python `set.discard` / `del`). -/
def delS (l : List String) (x : String) : List String :=
  l.filter (fun y => y ≠ x)

theorem lookupA_updA_self {α : Type} (m : List (String × α)) (k : String) (v : α) :
    lookupA (updA m k v) k = some v := by
  induction m with
  | nil => simp [lookupA, updA]
  | cons p rest ih =>
    obtain ⟨k', v'⟩ := p
    by_cases h : k' = k
    · simp [lookupA, updA, h]
    · simp [lookupA, updA, h, ih]

theorem lookupA_updA_ne {α : Type} (m : List (String × α)) (k j : String) (v : α)
    (h : j ≠ k) : lookupA (updA m k v) j = lookupA m j := by
  have hkj : k ≠ j := fun hh => h hh.symm
  induction m with
  | nil => simp [lookupA, updA, hkj]
  | cons p rest ih =>
    obtain ⟨k', v'⟩ := p
    by_cases hk : k' = k
    · subst hk
      simp [lookupA, updA, hkj]
    · by_cases hj : k' = j <;> simp [lookupA, updA, hk, hj, ih, h]

theorem updA_idem {α : Type} (m : List (String × α)) (k : String) (v : α) :
    updA (updA m k v) k v = updA m k v := by
  induction m with
  | nil => simp [updA]
  | cons p rest ih =>
    obtain ⟨k', v'⟩ := p
    by_cases h : k' = k <;> simp [updA, h, ih]

theorem insS_idem (l : List String) (x : String) :
    insS (insS l x) x = insS l x := by
  by_cases h : x ∈ l <;> simp [insS, h]

theorem delS_idem (l : List String) (x : String) :
    delS (delS l x) x = delS l x := by
  simp [delS, List.filter_filter]

/-- One in-memory approval record: the `approval_data` dict stored in
`APIHandler.pending_approvals` (api_handler.py lines 382-400), plus the
mutable fields written by `process_approval_internal`. -/
structure MemRec where
  project : String
  env : String
  build : String
  version : String
  job : String
  desc : String
  actionKind : String
  timeout_minutes : Nat
  status : String
  created_at : String
  expires_at : String
  updated_at : String
  reminder_count : Nat
  approver : Option String
  approver_role : Option String
  comment : Option String
  reminder_stopped : Bool
  deriving DecidableEq, Repr

/-- The mutable state of `APIHandler` relevant to the approval lifecycle. -/
structure HState where
  pending_approvals : List (String × MemRec)
  approval_events : List (String × Bool)
  stopped_reminders : List String
  processing_approvals : List String
  reminder_timers : List String
  deriving DecidableEq, Repr

/-- `APIHandler._cancel_reminder_timer` (api_handler.py lines 1984-2022):
adds the id to `_stopped_reminders`, sets the record's `reminder_stopped`
flag when the record exists and is still pending, and drops the timer
reference. -/
def cancelReminderTimer (st : HState) (id : String) : HState :=
  let st1 : HState := { st with stopped_reminders := insS st.stopped_reminders id }
  let st2 : HState :=
    match lookupA st1.pending_approvals id with
    | some rec =>
      if rec.status = "pending" then
        let rec2 : MemRec := { rec with reminder_stopped := true }
        { st1 with pending_approvals := updA st1.pending_approvals id rec2 }
      else st1
    | none => st1
  { st2 with reminder_timers := delS st2.reminder_timers id }

/-- The status string `process_approval_internal` computes from its `action`
argument (api_handler.py lines 109-116). -/
def finalStatusOf (action : String) : String :=
  if action = "approve" then "approved"
  else if action = "reject" then "rejected"
  else if action = "approved" ∨ action = "rejected" then action
  else action ++ "d"

/-- The "already processed" message of `process_approval_internal`
(api_handler.py lines 91-97). -/
def alreadyMsg (status : String) : String :=
  if status = "approved" then "该审批已被通过，无法重复操作"
  else if status = "rejected" then "该审批已被拒绝，无法重复操作"
  else "该审批已被处理（状态：" ++ status ++ "），无法重复操作"

/-- Set the event for `id` if present, otherwise create it already set
(the emergency branch, api_handler.py lines 132-156). -/
def setOrCreateEvent (events : List (String × Bool)) (id : String) :
    List (String × Bool) :=
  updA events id true

/-- `APIHandler.process_approval_internal` (api_handler.py lines 51-173).
The function touches only in-memory state (its body performs no database
call), so the embedding is a pure transformer of `HState`.  The transient
`_processing_approvals` marker added at entry is discarded in the `finally`
block, so the set is unchanged across the call; the entry check therefore
tests the pre-state.  `getRole` embeds the external
`permission_service.get_user_role`; `now` the current ISO timestamp. -/
def processApprovalInternal (getRole : String → String) (now : String)
    (st : HState) (id action approver_username comment : String) :
    (Bool × String) × HState :=
  if id ∈ st.processing_approvals then
    ((false, "审批正在处理中，请勿重复点击"), st)
  else
    let st1 := cancelReminderTimer st id
    match lookupA st1.pending_approvals id with
    | none => ((false, "审批 " ++ id ++ " 不存在或已过期"), st1)
    | some rec =>
      if rec.status ≠ "pending" then
        ((false, alreadyMsg rec.status), st1)
      else
        let rec2 : MemRec :=
          { rec with
            status := finalStatusOf action
            approver := some approver_username
            approver_role := some (getRole approver_username)
            comment := some comment
            updated_at := now
            reminder_stopped := true }
        let st2 : HState :=
          { st1 with pending_approvals := updA st1.pending_approvals id rec2 }
        let st3 : HState :=
          { st2 with approval_events := setOrCreateEvent st2.approval_events id }
        ((true, "审批" ++ action ++ "成功"), st3)

/-- Set the event for `id` only when it exists (api_handler.py lines
450-452: the timeout handler has no emergency-creation branch). -/
def setEventIfPresent (events : List (String × Bool)) (id : String) :
    List (String × Bool) :=
  match lookupA events id with
  | some _ => updA events id true
  | none => events

/-- The record written by a successful timeout transition
(api_handler.py lines 440-444). -/
def timeoutRec (now : String) (rec : MemRec) : MemRec :=
  { rec with
    status := "timeout"
    approver := some "system"
    approver_role := some "system"
    comment := some "审批超时"
    updated_at := now }

/-- The body of the per-request `timeout_handler` thread after its sleep
(api_handler.py lines 429-457): if the record is still present and pending,
it is overwritten with a `timeout` decision by `system`, the event is set
when present, and the reminder timer is cancelled; otherwise nothing
happens. -/
def timeoutHandlerStep (now : String) (st : HState) (id : String) : HState :=
  match lookupA st.pending_approvals id with
  | none => st
  | some rec =>
    if rec.status = "pending" then
      let st1 : HState :=
        { st with pending_approvals := updA st.pending_approvals id (timeoutRec now rec) }
      let st2 : HState :=
        { st1 with approval_events := setEventIfPresent st1.approval_events id }
      cancelReminderTimer st2 id
    else st

/-- One durable row of the `approvals` table
(database_service.py lines 162-188, `ApprovalRequest` lines 32-52). -/
structure DbRec where
  project : String
  env : String
  build : String
  job : String
  version : String
  desc : String
  actionKind : String
  timeout_seconds : Nat
  status : String
  created_at : String
  updated_at : String
  approver : Option String
  approver_role : Option String
  comment : Option String
  is_locked : Bool
  deriving DecidableEq, Repr

/-- The durable store: request_id keyed rows. -/
abbrev DbState := List (String × DbRec)

/-- The dict returned by `DatabaseService.update_approval_status`
(success flag, user message, outcome code). -/
structure UpdateOutcome where
  success : Bool
  message : String
  code : String
  deriving DecidableEq, Repr

/-- Python string rendering of a nullable column in an f-string. -/
def displayOpt (o : Option String) : String :=
  match o with
  | some s => s
  | none => "None"

/-- `DatabaseService.update_approval_status` (database_service.py lines
389-494): refuses a missing row (`NOT_FOUND`), a non-pending row
(`ALREADY_PROCESSED`, naming the stored approver), and a row that is not
advisory-locked by the submitting approver (`LOCK_REQUIRED`); otherwise
writes status, approver, role, comment, timestamp and releases the lock. -/
def update_approval_status (db : DbState)
    (request_id status approver approver_role comment now : String) :
    UpdateOutcome × DbState :=
  match lookupA db request_id with
  | none =>
    ({ success := false, message := "审批请求不存在", code := "NOT_FOUND" }, db)
  | some row =>
    if row.status ≠ "pending" then
      ({ success := false
         message := "❌ 审批已处理！当前状态: " ++ row.status ++ ", 操作人: " ++
           displayOpt row.approver ++ "，请勿重复操作"
         code := "ALREADY_PROCESSED" }, db)
    else if ¬ row.is_locked ∨ row.approver ≠ some approver then
      ({ success := false, message := "审批请求未被正确锁定", code := "LOCK_REQUIRED" },
        db)
    else
      let row2 : DbRec :=
        { row with
          status := status
          approver := some approver
          approver_role := some approver_role
          comment := some comment
          updated_at := now
          is_locked := false }
      ({ success := true, message := "审批" ++ status ++ "成功", code := "SUCCESS" },
        updA db request_id row2)

/-- The value returned to Jenkins by the `/api/stage/approval/wait`
handler: either a decision payload or a timeout payload. -/
inductive WaitResult where
  | timedOut (waited : Nat)
  | decision (status : String) (approver : Option String)
      (role : Option String) (comment : Option String) (waited : Nat)
  deriving DecidableEq, Repr

/-- The post-loop timeout handling of `approval_wait` (api_handler.py lines
587-648): cancel the reminder timer, re-read the durable row; a pending row
triggers a durable `update_approval_status(..., timeout, system, ...)` call
(whose outcome the handler ignores) plus an in-memory timeout sync and
event signal; a resolved row is returned as the decision after syncing the
in-memory status and discarding the event; a missing row yields a timeout
response with no durable write. -/
def waitTimeoutFallback (now : String) (db : DbState) (st : HState)
    (id : String) (waited : Nat) : WaitResult × DbState × HState :=
  let st1 := cancelReminderTimer st id
  match lookupA db id with
  | none => (.timedOut waited, db, st1)
  | some row =>
    if row.status = "pending" then
      let db2 := (update_approval_status db id "timeout" "system" "system" "审批超时" now).2
      let st2 : HState :=
        match lookupA st1.pending_approvals id with
        | some rec =>
          let rec2 : MemRec := { rec with status := "timeout" }
          let st2a : HState :=
            { st1 with pending_approvals := updA st1.pending_approvals id rec2 }
          { st2a with approval_events := setEventIfPresent st2a.approval_events id }
        | none => st1
      (.timedOut waited, db2, st2)
    else
      let st2 : HState :=
        match lookupA st1.pending_approvals id with
        | some rec =>
          let rec2 : MemRec := { rec with status := row.status }
          { st1 with pending_approvals := updA st1.pending_approvals id rec2 }
        | none => st1
      let st3 : HState := { st2 with approval_events := delA st2.approval_events id }
      (.decision row.status row.approver row.approver_role row.comment waited, db, st3)

/-- One snapshot of the shared state as observed by an iteration of the
`approval_wait` polling loop (api_handler.py lines 480-585): the in-memory
record, whether the event object exists, and whether it was found set. -/
structure WaitObs where
  mem : Option MemRec
  eventPresent : Bool
  eventIsSet : Bool
  deriving DecidableEq, Repr

/-- Upper bound, in polling slices (`check_interval` = 1 s), on the time one
iteration of the wait loop blocks: zero on an early return or a pre-set
event, one slice for an event wait or a plain sleep, and two slices on the
degenerate path (lines 565-575) where no event object exists while the
record is still pending (the loop then sleeps twice per iteration). -/
def sliceBlock (o : WaitObs) : Nat :=
  match o.mem with
  | some rec =>
    if rec.status ≠ "pending" then 0
    else if o.eventPresent then (if o.eventIsSet then 0 else 1)
    else 2
  | none => if o.eventPresent then (if o.eventIsSet then 0 else 1) else 1

/-- How the polling loop of `approval_wait` ends: an in-memory decision
observed mid-loop, or falling through to the timeout handling. -/
inductive LoopExit where
  | decision (rec : MemRec) (waited : Nat)
  | fallthrough (waited : Nat)
  deriving DecidableEq, Repr

/-- The polling loop of `approval_wait` (api_handler.py lines 480-585):
`waited` starts at 0 and increases by one slice per iteration until it
reaches `max_wait_seconds`; each iteration first re-reads the in-memory
record and returns at once when it is resolved; `blocked` accumulates the
worst-case blocking time of the iterations actually executed. -/
def waitLoopAux (obs : Nat → WaitObs) : Nat → Nat → Nat → LoopExit × Nat
  | 0, waited, blocked => (.fallthrough waited, blocked)
  | fuel + 1, waited, blocked =>
    let o := obs waited
    match o.mem with
    | some rec =>
      if rec.status ≠ "pending" then (.decision rec waited, blocked)
      else waitLoopAux obs fuel (waited + 1) (blocked + sliceBlock o)
    | none => waitLoopAux obs fuel (waited + 1) (blocked + sliceBlock o)

/-- The complete wait of `approval_wait` after the approval has been
created: run the polling loop for `maxWait` slices, then either return the
observed decision (cancelling reminders first, line 510) or run the
timeout fallback.  The second component of the first pair is the
accumulated worst-case blocking time. -/
def approvalWaitRun (obs : Nat → WaitObs) (maxWait : Nat) (now : String)
    (db : DbState) (st : HState) (id : String) :
    (WaitResult × Nat) × DbState × HState :=
  match waitLoopAux obs maxWait 0 0 with
  | (.decision rec w, blocked) =>
    ((.decision rec.status rec.approver rec.approver_role rec.comment w, blocked),
      db, cancelReminderTimer st id)
  | (.fallthrough w, blocked) =>
    let r := waitTimeoutFallback now db st id w
    ((r.1, blocked), r.2.1, r.2.2)

/-- One snapshot of shared state as observed at a check point of the
background `reminder_task` thread (api_handler.py lines 1872-1975):
membership in `_stopped_reminders`, the in-memory record, and the result of
`database_service.get_approval`.  `get_approval` catches every exception
and returns `None` (database_service.py lines 273-275), so `db = none`
covers both a missing row and any Durable Store failure; no exception ever
reaches the reminder thread from it. -/
structure RemObs where
  stopped : Bool
  mem : Option MemRec
  db : Option DbRec
  deriving DecidableEq, Repr

/-- Check 2 of the reminder task: record present with non-pending status. -/
def memStatusStop (o : RemObs) : Bool :=
  match o.mem with
  | some rec => decide (rec.status ≠ "pending")
  | none => false

/-- Check 3 of the reminder task: record present with `reminder_stopped`. -/
def memFlagStop (o : RemObs) : Bool :=
  match o.mem with
  | some rec => rec.reminder_stopped
  | none => false

/-- The three in-memory stop conditions the reminder task re-checks at every
waking point (api_handler.py lines 1882-1898, 1913-1929, 1966-1971). -/
def stopCond (o : RemObs) : Bool := o.stopped || memStatusStop o || memFlagStop o

/-- Was the durable row observed resolved (row present with non-pending
status)?  Used by the initial-wait phase at its 10-second cadence
(api_handler.py lines 1900-1908): `if db_approval and db_approval.status
!= 'pending'`, so a `None` read — missing row or store failure — is
skipped there and the phase continues. -/
def dbResolvedObs (o : RemObs) : Bool :=
  match o.db with
  | some r => decide (r.status ≠ "pending")
  | none => false

/-- How the background reminder thread terminates.  There is no abnormal
exit: `get_approval` never raises, so every run of the task ends in one of
these three ways. -/
inductive RemExit where
  | cancelled
  | dbResolved
  | exhausted
  deriving DecidableEq, Repr

/-- The first five-minute wait of `reminder_task` (api_handler.py lines
1879-1908): 600 half-second steps, each re-checking the stop conditions, and
every 20th step (10 s) also the durable status; consumes one observation per
step, returning the exit or the next observation index. -/
def initialPhase (obs : Nat → RemObs) : Nat → Nat → Nat → RemExit ⊕ Nat
  | 0, _, t => .inr t
  | fuel + 1, i, t =>
    let o := obs t
    if stopCond o then .inl .cancelled
    else if i % 20 = 0 ∧ dbResolvedObs o then .inl .dbResolved
    else initialPhase obs fuel (i + 1) (t + 1)

/-- The five-minute wait between reminder fires (api_handler.py lines
1962-1973): 150 two-second steps, each re-checking the stop conditions;
`none` when a stop condition was seen, otherwise the next observation
index. -/
def interWait (obs : Nat → RemObs) : Nat → Nat → Option Nat
  | 0, t => some t
  | fuel + 1, t => if stopCond (obs t) then none else interWait obs fuel (t + 1)

/-- Does check 4 end the main loop (api_handler.py lines 1931-1938)?
`if (not approval_request or approval_request.status != PENDING): return`
— a `None` read (missing row or store failure, since `get_approval`
converts every exception to `None`) and a resolved row both make the task
return.  The `except` clause at lines 1939-1941 is unreachable: nothing in
the `try` can raise, so the local `approval_request` is always freshly
bound when the fire at line 1947 dereferences it. -/
def remResolves (o : RemObs) : Bool :=
  match o.db with
  | none => true
  | some row => decide (row.status ≠ "pending")

/-- The main `while count < max_reminders` loop of `reminder_task`
(api_handler.py lines 1910-1975).  Fires are recorded as (observation
index, reminder count) pairs, in chronological order. -/
def remLoop (obs : Nat → RemObs) :
    Nat → Nat → Nat → List (Nat × Nat) × RemExit
  | 0, _, _ => ([], .exhausted)
  | fuel + 1, t, count =>
    let o := obs t
    if stopCond o then ([], .cancelled)
    else if remResolves o then ([], .dbResolved)
    else
      let count2 := count + 1
      if count2 < 6 then
        match interWait obs 150 (t + 1) with
        | none => ([(t, count2)], .cancelled)
        | some t2 =>
          let r := remLoop obs fuel t2 count2
          ((t, count2) :: r.1, r.2)
      else
        let r := remLoop obs fuel (t + 1) count2
        ((t, count2) :: r.1, r.2)

/-- The whole background reminder thread for one approval
(api_handler.py lines 1872-1975): initial wait, then at most
`max_reminders = 6` fires. -/
def reminderTask (obs : Nat → RemObs) : List (Nat × Nat) × RemExit :=
  match initialPhase obs 600 0 0 with
  | .inl e => ([], e)
  | .inr t => remLoop obs 6 t 0

/-- Is a record old enough for the cleanup sweep to evict
(api_handler.py lines 2052-2080)?  `parse` embeds
`datetime.fromisoformat`: `none` models a parse exception, which the sweep
catches and skips; a missing (`""`) `created_at` is skipped before
parsing. -/
def isExpiredRec (parse : String → Option Int) (now : Int) (rec : MemRec) :
    Bool :=
  if rec.created_at = "" then false
  else
    match parse rec.created_at with
    | none => false
    | some c => decide (now - c > 7200)

/-- One pass of `cleanup_task` over the in-memory registry
(api_handler.py lines 2047-2090): collect the ids of parseable records
older than two hours, then delete those ids from `pending_approvals` and
`_approval_events`. -/
def cleanupSweep (parse : String → Option Int) (now : Int) (st : HState) :
    HState :=
  let expired :=
    (st.pending_approvals.filter (fun p => isExpiredRec parse now p.2)).map Prod.fst
  { st with
    pending_approvals := st.pending_approvals.filter (fun p => decide (p.1 ∉ expired))
    approval_events := st.approval_events.filter (fun p => decide (p.1 ∉ expired)) }

/-- Approver-name resolution of the `/api/approve/<id>` and
`/api/reject/<id>` endpoints (api_handler.py lines 672-681, 748-757): an
absent or empty `approver` parameter falls back to the first configured
owner of the record's project, or to `admin` when the approval is unknown
or the project has no owners.  `getOwners` embeds
`permission_service.get_project_owners`. -/
def firstOwnerOrAdmin (getOwners : String → List String) (project : String) :
    String :=
  match getOwners project with
  | [] => "admin"
  | o :: _ => o

/-- Full approver-name resolution: an absent or empty (falsy) parameter
falls back to the project-owner rule above, or to `admin` for an unknown
approval (api_handler.py lines 673-681). -/
def resolveApprover (getOwners : String → List String) (st : HState)
    (id : String) (param : Option String) : String :=
  let fallback :=
    match lookupA st.pending_approvals id with
    | some rec => firstOwnerOrAdmin getOwners rec.project
    | none => "admin"
  match param with
  | some a => if a = "" then fallback else a
  | none => fallback

/-- Comment-parameter defaulting of the web endpoints: a missing parameter
gets the endpoint's default text, a present (even empty) value is kept. -/
def webComment (dflt : String) (param : Option String) : String :=
  match param with
  | some c => c
  | none => dflt

/-- The slice of the endpoint responses the claims are about. -/
structure WebResp where
  result : String
  approval_id : String
  deriving DecidableEq, Repr

/-- The `/api/approve/<id>` endpoint (api_handler.py lines 660-734): no
permission or authentication check; resolves the approver name, then calls
`process_approval_internal` with action `approved`. -/
def approve_request (getRole : String → String)
    (getOwners : String → List String) (now : String) (st : HState)
    (id : String) (approverParam commentParam : Option String) :
    WebResp × HState :=
  let user := resolveApprover getOwners st id approverParam
  let comment := webComment "Web界面审批" commentParam
  let r := processApprovalInternal getRole now st id "approved" user comment
  ({ result := if r.1.1 then "approved" else "error", approval_id := id }, r.2)

/-- The `/api/reject/<id>` endpoint (api_handler.py lines 736-810): same
shape as approval, with action `rejected`. -/
def reject_request (getRole : String → String)
    (getOwners : String → List String) (now : String) (st : HState)
    (id : String) (approverParam commentParam : Option String) :
    WebResp × HState :=
  let user := resolveApprover getOwners st id approverParam
  let comment := webComment "Web界面拒绝" commentParam
  let r := processApprovalInternal getRole now st id "rejected" user comment
  ({ result := if r.1.1 then "rejected" else "error", approval_id := id }, r.2)

/-- Does `n` occur at the start of `h`?  (Helper for substring tests on
reply messages.) -/
def startsWithL : List Char → List Char → Bool
  | [], _ => true
  | _ :: _, [] => false
  | a :: n, b :: h => a = b && startsWithL n h

/-- Does `n` occur contiguously anywhere inside the second list?  Used to
state whether a reply message mentions a given name. -/
def hasSub (n : List Char) : List Char → Bool
  | [] => startsWithL n []
  | c :: t => startsWithL n (c :: t) || hasSub n t

/-- The combined program state: handler memory plus the durable store. -/
structure FullState where
  mem : HState
  db : DbState
  deriving DecidableEq, Repr

/-- A decision submission through `process_approval_internal` acting on the
full program state.  The function body (api_handler.py lines 51-173)
performs no database operation — it is deliberately "pure memory" per its
own docstring — so the durable component passes through unchanged. -/
def submitDecisionFull (getRole : String → String) (now : String)
    (s : FullState) (id action user comment : String) :
    (Bool × String) × FullState :=
  let r := processApprovalInternal getRole now s.mem id action user comment
  (r.1, { mem := r.2, db := s.db })

/-- The in-memory record written by a successful
`process_approval_internal` (api_handler.py lines 109-123). -/
def appliedRec (getRole : String → String) (now : String) (rec : MemRec)
    (action user comment : String) : MemRec :=
  { rec with
    status := finalStatusOf action
    approver := some user
    approver_role := some (getRole user)
    comment := some comment
    updated_at := now
    reminder_stopped := true }

/-- Fixture: a freshly created pending in-memory record. -/
def wPend : MemRec :=
  { project := "demo"
    env := "prod"
    build := "7"
    version := "v1"
    job := "demo-job"
    desc := "d"
    actionKind := "部署"
    timeout_minutes := 30
    status := "pending"
    created_at := "2026-01-01T00:00:00"
    expires_at := "2026-01-01T00:30:00"
    updated_at := "2026-01-01T00:00:00"
    reminder_count := 0
    approver := none
    approver_role := none
    comment := none
    reminder_stopped := false }

/-- Fixture: the same record after an approval by alice. -/
def wAppr : MemRec :=
  { wPend with
    status := "approved"
    approver := some "alice"
    approver_role := some "管理员"
    comment := some "ok" }

/-- Fixture: handler state holding one resolved approval `a1`. -/
def wStA : HState :=
  { pending_approvals := [("a1", wAppr)]
    approval_events := [("a1", false)]
    stopped_reminders := []
    processing_approvals := []
    reminder_timers := [] }

/-- Fixture: handler state holding one pending approval `a1`. -/
def wStP : HState :=
  { pending_approvals := [("a1", wPend)]
    approval_events := [("a1", false)]
    stopped_reminders := []
    processing_approvals := []
    reminder_timers := ["a1"] }

/-- Fixture: constant role collaborator. -/
def wRole : String → String := fun _ => "管理员"

/-- Fixture: owner collaborator mapping project `demo` to `[bob, carol]`. -/
def wOwners : String → List String :=
  fun p => if p = "demo" then ["bob", "carol"] else []

/-- Fixture: a pending durable row for `a1`, unlocked. -/
def wDbPend : DbRec :=
  { project := "demo"
    env := "prod"
    build := "7"
    job := "demo-job"
    version := "v1"
    desc := "d"
    actionKind := "部署"
    timeout_seconds := 1800
    status := "pending"
    created_at := "2026-01-01T00:00:00"
    updated_at := "2026-01-01T00:00:00"
    approver := none
    approver_role := none
    comment := none
    is_locked := false }

/-- Fixture: durable store holding the single pending row `a1`. -/
def wDb : DbState := [("a1", wDbPend)]

/-- Fixture: a reminder-thread observation with nothing resolved and the
durable read succeeding on a pending row. -/
def wRemQuiet : RemObs :=
  { stopped := false
    mem := some wPend
    db := some wDbPend }

/-- Fixture: reminder-trace on which nothing ever stops the reminders. -/
def wRemTraceQuiet : Nat → RemObs := fun _ => wRemQuiet

/-- Fixture: reminder-trace whose durable reads start failing (returning
`None`, as `get_approval` does on any store error) at observation 600,
i.e. exactly at the first main-loop status check. -/
def wRemTraceDbNone : Nat → RemObs :=
  fun t => if t < 600 then wRemQuiet else { wRemQuiet with db := none }

/-- Fixture: reminder-trace on which a transition lands at observation 601:
every check from then on sees a stop condition. -/
def wRemTraceStop601 : Nat → RemObs :=
  fun t => if t < 601 then wRemQuiet else { wRemQuiet with stopped := true }

/-- Fixture: wait-loop observation trace in which the record stays pending
with a registered, unset event for two slices and is approved by alice at
the third poll. -/
def wWaitTrace : Nat → WaitObs :=
  fun t =>
    if t < 2 then { mem := some wPend, eventPresent := true, eventIsSet := false }
    else { mem := some wAppr, eventPresent := true, eventIsSet := true }

theorem cancel_lookup (st : HState) (id : String) :
    lookupA (cancelReminderTimer st id).pending_approvals id =
      match lookupA st.pending_approvals id with
      | none => none
      | some rec =>
          some (if rec.status = "pending" then { rec with reminder_stopped := true }
                else rec) := by
  unfold cancelReminderTimer
  cases h : lookupA st.pending_approvals id with
  | none => simp [h]
  | some rec =>
    by_cases hp : rec.status = "pending"
    · simp [h, hp, lookupA_updA_self]
    · simp [h, hp]

theorem cancel_map_of_not_pending (st : HState) (id : String) (rec : MemRec)
    (h : lookupA st.pending_approvals id = some rec)
    (hnp : rec.status ≠ "pending") :
    (cancelReminderTimer st id).pending_approvals = st.pending_approvals := by
  unfold cancelReminderTimer
  simp [h, hnp]

theorem proc_already (getRole : String → String) (now : String) (st : HState)
    (id action user comment : String) (rec : MemRec)
    (hproc : id ∉ st.processing_approvals)
    (h : lookupA st.pending_approvals id = some rec)
    (hnp : rec.status ≠ "pending") :
    processApprovalInternal getRole now st id action user comment =
      ((false, alreadyMsg rec.status), cancelReminderTimer st id) := by
  have hmap := cancel_map_of_not_pending st id rec h hnp
  unfold processApprovalInternal
  simp [hproc, hmap, h, hnp]

theorem proc_lookup_after (getRole : String → String) (now : String)
    (st : HState) (id action user comment : String) (rec2 rec3 : MemRec)
    (h2 : lookupA st.pending_approvals id = some rec2)
    (h3 : lookupA
        (processApprovalInternal getRole now st id action user comment).2.pending_approvals
        id = some rec3)
    (hne : rec3.status ≠ rec2.status) :
    rec2.status = "pending" ∧ rec3.status = finalStatusOf action := by
  by_cases hproc : id ∈ st.processing_approvals
  · exfalso
    unfold processApprovalInternal at h3
    simp [hproc] at h3
    rw [h2] at h3
    exact hne (by rw [Option.some.injEq] at h3; rw [h3])
  · by_cases hp : rec2.status = "pending"
    · refine ⟨hp, ?_⟩
      have hcl := cancel_lookup st id
      rw [h2] at hcl
      simp only [hp, if_pos rfl] at hcl
      unfold processApprovalInternal at h3
      simp only [hproc, if_neg, ite_false] at h3
      · rw [hcl] at h3
        simp only [ne_eq] at h3
        have hst : ({ rec2 with reminder_stopped := true } : MemRec).status = "pending" := hp
        simp only [hst, not_true_eq_false, ite_false, if_neg, not_false_eq_true,
          if_true] at h3
        simp only [lookupA_updA_self] at h3
        rw [Option.some.injEq] at h3
        rw [← h3]
    · exfalso
      rw [proc_already getRole now st id action user comment rec2 hproc h2 hp] at h3
      rw [cancel_map_of_not_pending st id rec2 h2 hp, h2] at h3
      rw [Option.some.injEq] at h3
      exact hne (by rw [h3])

theorem timeout_step_nonpending (now : String) (st : HState) (id : String)
    (rec : MemRec) (h : lookupA st.pending_approvals id = some rec)
    (hnp : rec.status ≠ "pending") :
    timeoutHandlerStep now st id = st := by
  unfold timeoutHandlerStep
  simp [h, hnp]

theorem cancel_lookup_nonpending (st : HState) (id : String) (rec : MemRec)
    (h : lookupA st.pending_approvals id = some rec)
    (hnp : rec.status ≠ "pending") :
    lookupA (cancelReminderTimer st id).pending_approvals id = some rec := by
  rw [cancel_map_of_not_pending st id rec h hnp, h]

theorem timeout_step_pending (now : String) (st : HState) (id : String)
    (rec : MemRec) (h : lookupA st.pending_approvals id = some rec)
    (hp : rec.status = "pending") :
    lookupA (timeoutHandlerStep now st id).pending_approvals id =
      some (timeoutRec now rec) := by
  unfold timeoutHandlerStep
  simp only [h, hp, ite_true, if_pos]
  exact cancel_lookup_nonpending _ id _ (by simp [lookupA_updA_self])
    (by simp [timeoutRec])

theorem timeout_step_lookup_after (now : String) (st : HState) (id : String)
    (rec2 rec3 : MemRec)
    (h2 : lookupA st.pending_approvals id = some rec2)
    (h3 : lookupA (timeoutHandlerStep now st id).pending_approvals id = some rec3)
    (hne : rec3.status ≠ rec2.status) :
    rec2.status = "pending" ∧ rec3.status = "timeout" := by
  by_cases hp : rec2.status = "pending"
  · refine ⟨hp, ?_⟩
    rw [timeout_step_pending now st id rec2 h2 hp] at h3
    rw [Option.some.injEq] at h3
    rw [← h3]
    simp [timeoutRec]
  · exfalso
    rw [timeout_step_nonpending now st id rec2 h2 hp, h2] at h3
    rw [Option.some.injEq] at h3
    exact hne (by rw [h3])

theorem finalStatusOf_call_sites (action : String)
    (h : action = "approve" ∨ action = "reject" ∨ action = "approved" ∨
      action = "rejected") :
    finalStatusOf action = "approved" ∨ finalStatusOf action = "rejected" := by
  rcases h with h | h | h | h <;> subst h <;> decide

/-- C1: an approval status only ever moves from `pending` to one of
`approved`, `rejected` (through `process_approval_internal`, whose `action`
argument is one of `approve`/`reject`/`approved`/`rejected` at every call
site) or `timeout` (through the timeout handler); once the status is
non-pending, a later `process_approval_internal` call returns the
"already processed" failure and leaves the record — status, approver and
all other fields — unchanged, and a later timeout-handler firing leaves the
whole state unchanged. -/
theorem status_transitions_pending_only_and_immutable
    (getRole : String → String) (now : String) (st : HState)
    (id action user comment : String) (rec : MemRec)
    (hrec : lookupA st.pending_approvals id = some rec)
    (hnp : rec.status ≠ "pending")
    (hpr : id ∉ st.processing_approvals) :
    (processApprovalInternal getRole now st id action user comment).1 =
      (false, alreadyMsg rec.status) ∧
    lookupA (processApprovalInternal getRole now st id action user
      comment).2.pending_approvals id = some rec ∧
    timeoutHandlerStep now st id = st ∧
    (∀ (st2 : HState) (a2 u2 c2 : String) (rec2 rec3 : MemRec),
      (a2 = "approve" ∨ a2 = "reject" ∨ a2 = "approved" ∨ a2 = "rejected") →
      lookupA st2.pending_approvals id = some rec2 →
      lookupA (processApprovalInternal getRole now st2 id a2 u2
        c2).2.pending_approvals id = some rec3 →
      rec3.status ≠ rec2.status →
      rec2.status = "pending" ∧
        (rec3.status = "approved" ∨ rec3.status = "rejected")) ∧
    (∀ (st3 : HState) (rec2 rec3 : MemRec),
      lookupA st3.pending_approvals id = some rec2 →
      lookupA (timeoutHandlerStep now st3 id).pending_approvals id = some rec3 →
      rec3.status ≠ rec2.status →
      rec2.status = "pending" ∧ rec3.status = "timeout") := by
  refine ⟨?_, ?_, ?_, ?_, ?_⟩
  · rw [proc_already getRole now st id action user comment rec hpr hrec hnp]
  · rw [proc_already getRole now st id action user comment rec hpr hrec hnp]
    exact cancel_lookup_nonpending st id rec hrec hnp
  · exact timeout_step_nonpending now st id rec hrec hnp
  · intro st2 a2 u2 c2 rec2 rec3 ha h2 h3 hne
    obtain ⟨hp, hfs⟩ := proc_lookup_after getRole now st2 id a2 u2 c2 rec2 rec3 h2 h3 hne
    refine ⟨hp, ?_⟩
    rw [hfs]
    exact finalStatusOf_call_sites a2 ha
  · intro st3 rec2 rec3 h2 h3 hne
    exact timeout_step_lookup_after now st3 id rec2 rec3 h2 h3 hne

/-- Witness for C1 on the concrete resolved state `wStA`. -/
theorem status_transitions_pending_only_and_immutable_witness :
    (lookupA wStA.pending_approvals "a1" = some wAppr ∧
      wAppr.status ≠ "pending" ∧ "a1" ∉ wStA.processing_approvals) ∧
    ((processApprovalInternal wRole "2026-01-01T01:00:00" wStA "a1" "approve"
        "bob" "c").1 = (false, alreadyMsg wAppr.status) ∧
      lookupA (processApprovalInternal wRole "2026-01-01T01:00:00" wStA "a1"
        "approve" "bob" "c").2.pending_approvals "a1" = some wAppr ∧
      timeoutHandlerStep "2026-01-01T01:00:00" wStA "a1" = wStA ∧
      (∀ (st2 : HState) (a2 u2 c2 : String) (rec2 rec3 : MemRec),
        (a2 = "approve" ∨ a2 = "reject" ∨ a2 = "approved" ∨ a2 = "rejected") →
        lookupA st2.pending_approvals "a1" = some rec2 →
        lookupA (processApprovalInternal wRole "2026-01-01T01:00:00" st2 "a1"
          a2 u2 c2).2.pending_approvals "a1" = some rec3 →
        rec3.status ≠ rec2.status →
        rec2.status = "pending" ∧
          (rec3.status = "approved" ∨ rec3.status = "rejected")) ∧
      (∀ (st3 : HState) (rec2 rec3 : MemRec),
        lookupA st3.pending_approvals "a1" = some rec2 →
        lookupA (timeoutHandlerStep "2026-01-01T01:00:00" st3
          "a1").pending_approvals "a1" = some rec3 →
        rec3.status ≠ rec2.status →
        rec2.status = "pending" ∧ rec3.status = "timeout")) :=
  ⟨⟨by decide, by decide, by decide⟩,
    status_transitions_pending_only_and_immutable wRole "2026-01-01T01:00:00"
      wStA "a1" "approve" "bob" "c" wAppr (by decide) (by decide) (by decide)⟩

theorem proc_applied_record (getRole : String → String) (now : String)
    (st : HState) (id action user comment : String) (rec : MemRec)
    (hpr : id ∉ st.processing_approvals)
    (h : lookupA st.pending_approvals id = some rec)
    (hp : rec.status = "pending") :
    (processApprovalInternal getRole now st id action user comment).1.1 = true ∧
    lookupA (processApprovalInternal getRole now st id action user
      comment).2.pending_approvals id =
      some (appliedRec getRole now rec action user comment) := by
  have hcl := cancel_lookup st id
  rw [h] at hcl
  simp only [hp, ite_true, if_pos] at hcl
  constructor
  · unfold processApprovalInternal
    simp only [hpr, ite_false, if_neg, not_false_eq_true]
    rw [hcl]
    simp [hp]
  · unfold processApprovalInternal
    simp only [hpr, ite_false, if_neg, not_false_eq_true]
    rw [hcl]
    simp only [hp, ne_eq, not_true_eq_false, ite_false, if_neg, not_false_eq_true]
    simp [lookupA_updA_self, appliedRec]

theorem proc_user_irrelevant (getRole : String → String) (now : String)
    (st : HState) (id action comment u1 u2 : String) :
    (processApprovalInternal getRole now st id action u1 comment).1.1 =
      (processApprovalInternal getRole now st id action u2 comment).1.1 ∧
    (lookupA (processApprovalInternal getRole now st id action u1
        comment).2.pending_approvals id).map MemRec.status =
      (lookupA (processApprovalInternal getRole now st id action u2
        comment).2.pending_approvals id).map MemRec.status := by
  by_cases hpr : id ∈ st.processing_approvals
  · simp [processApprovalInternal, hpr]
  · cases hcl : lookupA (cancelReminderTimer st id).pending_approvals id with
    | none => simp [processApprovalInternal, hpr, hcl]
    | some rec =>
      by_cases hp : rec.status = "pending"
      · simp [processApprovalInternal, hpr, hcl, hp, lookupA_updA_self]
      · simp [processApprovalInternal, hpr, hcl, hp]

/-- C3 counterexample: on a state whose in-memory record and durable row
are both pending, `process_approval_internal` reports success and resolves
the in-memory status, yet the durable store is bit-for-bit unchanged and
its row still says `pending` — no durable write accompanies the success. -/
theorem decision_success_without_durable_write :
    (submitDecisionFull wRole "2026-01-01T00:05:00" ⟨wStP, wDb⟩ "a1" "approved"
      "alice" "ok").1.1 = true ∧
    (lookupA (submitDecisionFull wRole "2026-01-01T00:05:00" ⟨wStP, wDb⟩ "a1"
      "approved" "alice" "ok").2.mem.pending_approvals "a1").map MemRec.status =
      some "approved" ∧
    (submitDecisionFull wRole "2026-01-01T00:05:00" ⟨wStP, wDb⟩ "a1" "approved"
      "alice" "ok").2.db = wDb ∧
    (lookupA wDb "a1").map DbRec.status = some "pending" := by decide

/-- C3 amended: a successful `process_approval_internal` writes the new
status, actor, role, comment and timestamp to the in-memory record only;
the operation performs no durable write at all, so the durable store is
unchanged and a resolved in-memory status can coexist with a still-pending
durable row. -/
theorem decision_updates_memory_only (getRole : String → String)
    (now : String) (s : FullState) (id action user comment : String)
    (rec : MemRec) (hpr : id ∉ s.mem.processing_approvals)
    (h : lookupA s.mem.pending_approvals id = some rec)
    (hp : rec.status = "pending") :
    (submitDecisionFull getRole now s id action user comment).2.db = s.db ∧
    (submitDecisionFull getRole now s id action user comment).1.1 = true ∧
    lookupA (submitDecisionFull getRole now s id action user
      comment).2.mem.pending_approvals id =
      some (appliedRec getRole now rec action user comment) := by
  obtain ⟨h1, h2⟩ :=
    proc_applied_record getRole now s.mem id action user comment rec hpr h hp
  exact ⟨rfl, h1, h2⟩

/-- Witness for the amended C3 on the concrete pending state. -/
theorem decision_updates_memory_only_witness :
    ("a1" ∉ wStP.processing_approvals ∧
      lookupA wStP.pending_approvals "a1" = some wPend ∧
      wPend.status = "pending") ∧
    ((submitDecisionFull wRole "2026-01-01T00:05:00" ⟨wStP, wDb⟩ "a1" "approved"
        "alice" "ok").2.db = wDb ∧
      (submitDecisionFull wRole "2026-01-01T00:05:00" ⟨wStP, wDb⟩ "a1" "approved"
        "alice" "ok").1.1 = true ∧
      lookupA (submitDecisionFull wRole "2026-01-01T00:05:00" ⟨wStP, wDb⟩ "a1"
        "approved" "alice" "ok").2.mem.pending_approvals "a1" =
        some (appliedRec wRole "2026-01-01T00:05:00" wPend "approved" "alice"
          "ok")) :=
  ⟨⟨by decide, by decide, by decide⟩,
    decision_updates_memory_only wRole "2026-01-01T00:05:00" ⟨wStP, wDb⟩ "a1"
      "approved" "alice" "ok" wPend (by decide) (by decide) (by decide)⟩

/-- C7 counterexample: resubmitting a decision for the approval already
approved by alice yields the fixed reply "该审批已被通过，无法重复操作",
which does not contain the decider's name (nor any timestamp): the
response does not name the actor who decided. -/
theorem resubmission_reply_omits_decider :
    (processApprovalInternal wRole "2026-01-01T01:00:00" wStA "a1" "approved"
      "bob" "x").1 = (false, "该审批已被通过，无法重复操作") ∧
    (lookupA wStA.pending_approvals "a1").map MemRec.approver =
      some (some "alice") ∧
    hasSub "alice".data "该审批已被通过，无法重复操作".data = false := by
  decide

/-- C7 amended: a decision submitted after resolution always returns a
failure reply that identifies the existing decision status ("already
approved" / "already rejected") and leaves the record unchanged, but the
reply names neither the deciding actor nor the decision time; only the
database-layer `update_approval_status` refusal embeds the stored
approver's name in its message (still without the time). -/
theorem resubmission_reply_identifies_status_only (getRole : String → String)
    (now : String) (st : HState) (id action user comment : String)
    (rec : MemRec) (hpr : id ∉ st.processing_approvals)
    (hrec : lookupA st.pending_approvals id = some rec)
    (hnp : rec.status ≠ "pending") :
    (processApprovalInternal getRole now st id action user comment).1 =
      (false, alreadyMsg rec.status) ∧
    lookupA (processApprovalInternal getRole now st id action user
      comment).2.pending_approvals id = some rec ∧
    (∀ (db : DbState) (rid s2 a2 r2 c2 n2 : String) (row : DbRec),
      lookupA db rid = some row → row.status ≠ "pending" →
      update_approval_status db rid s2 a2 r2 c2 n2 =
        ({ success := false
           message := "❌ 审批已处理！当前状态: " ++ row.status ++ ", 操作人: " ++
             displayOpt row.approver ++ "，请勿重复操作"
           code := "ALREADY_PROCESSED" }, db)) := by
  refine ⟨?_, ?_, ?_⟩
  · rw [proc_already getRole now st id action user comment rec hpr hrec hnp]
  · rw [proc_already getRole now st id action user comment rec hpr hrec hnp]
    exact cancel_lookup_nonpending st id rec hrec hnp
  · intro db rid s2 a2 r2 c2 n2 row hrow hnp2
    unfold update_approval_status
    simp [hrow, hnp2]

/-- Witness for the amended C7 on the concrete resolved state. -/
theorem resubmission_reply_identifies_status_only_witness :
    ("a1" ∉ wStA.processing_approvals ∧
      lookupA wStA.pending_approvals "a1" = some wAppr ∧
      wAppr.status ≠ "pending") ∧
    ((processApprovalInternal wRole "2026-01-01T01:00:00" wStA "a1" "rejected"
        "bob" "x").1 = (false, alreadyMsg wAppr.status) ∧
      lookupA (processApprovalInternal wRole "2026-01-01T01:00:00" wStA "a1"
        "rejected" "bob" "x").2.pending_approvals "a1" = some wAppr ∧
      (∀ (db : DbState) (rid s2 a2 r2 c2 n2 : String) (row : DbRec),
        lookupA db rid = some row → row.status ≠ "pending" →
        update_approval_status db rid s2 a2 r2 c2 n2 =
          ({ success := false
             message := "❌ 审批已处理！当前状态: " ++ row.status ++ ", 操作人: " ++
               displayOpt row.approver ++ "，请勿重复操作"
             code := "ALREADY_PROCESSED" }, db))) :=
  ⟨⟨by decide, by decide, by decide⟩,
    resubmission_reply_identifies_status_only wRole "2026-01-01T01:00:00" wStA
      "a1" "rejected" "bob" "x" wAppr (by decide) (by decide) (by decide)⟩

/-- C10: the `/api/approve/<id>` and `/api/reject/<id>` endpoints apply the
decision with no permission or authentication check on the caller: for any
two supplied approver identities the outcome — the result string and the
resulting status of the record — is identical (two-run noninterference);
when the approver parameter is absent or empty, a successfully recorded
transition is attributed to the first configured project owner (or `admin`
when the project has no owners), and for an unknown approval the name
resolves to `admin`. -/
theorem web_endpoints_apply_without_permission_check
    (getRole : String → String) (getOwners : String → List String)
    (now : String) (st : HState) (id : String) (c p1 p2 : Option String) :
    (approve_request getRole getOwners now st id p1 c).1.result =
      (approve_request getRole getOwners now st id p2 c).1.result ∧
    (lookupA (approve_request getRole getOwners now st id p1
        c).2.pending_approvals id).map MemRec.status =
      (lookupA (approve_request getRole getOwners now st id p2
        c).2.pending_approvals id).map MemRec.status ∧
    (reject_request getRole getOwners now st id p1 c).1.result =
      (reject_request getRole getOwners now st id p2 c).1.result ∧
    (lookupA (reject_request getRole getOwners now st id p1
        c).2.pending_approvals id).map MemRec.status =
      (lookupA (reject_request getRole getOwners now st id p2
        c).2.pending_approvals id).map MemRec.status ∧
    (∀ (p : Option String) (rec : MemRec), (p = none ∨ p = some "") →
      lookupA st.pending_approvals id = some rec →
      rec.status = "pending" → id ∉ st.processing_approvals →
      (lookupA (approve_request getRole getOwners now st id p
          c).2.pending_approvals id).map MemRec.approver =
        some (some (firstOwnerOrAdmin getOwners rec.project))) ∧
    (lookupA st.pending_approvals id = none →
      resolveApprover getOwners st id none = "admin") := by
  have happ := proc_user_irrelevant getRole now st id "approved"
    (webComment "Web界面审批" c)
    (resolveApprover getOwners st id p1) (resolveApprover getOwners st id p2)
  have hrej := proc_user_irrelevant getRole now st id "rejected"
    (webComment "Web界面拒绝" c)
    (resolveApprover getOwners st id p1) (resolveApprover getOwners st id p2)
  refine ⟨?_, ?_, ?_, ?_, ?_, ?_⟩
  · unfold approve_request
    simp only [happ.1]
  · unfold approve_request
    simpa using happ.2
  · unfold reject_request
    simp only [hrej.1]
  · unfold reject_request
    simpa using hrej.2
  · intro p rec hp hrec hpend hpr
    have hres : resolveApprover getOwners st id p =
        firstOwnerOrAdmin getOwners rec.project := by
      rcases hp with hp | hp <;> subst hp <;> simp [resolveApprover, hrec]
    unfold approve_request
    simp only [hres]
    obtain ⟨_, h2⟩ := proc_applied_record getRole now st id "approved"
      (firstOwnerOrAdmin getOwners rec.project)
      (webComment "Web界面审批" c) rec hpr hrec hpend
    simp [h2, appliedRec]
  · intro hnone
    simp [resolveApprover, hnone]

/-- Witness for C10 on the concrete pending state with two different
caller identities. -/
theorem web_endpoints_apply_without_permission_check_witness :
    (approve_request wRole wOwners "2026-01-01T00:05:00" wStP "a1"
        (some "mallory") none).1.result =
      (approve_request wRole wOwners "2026-01-01T00:05:00" wStP "a1"
        (some "eve") none).1.result ∧
    (lookupA (approve_request wRole wOwners "2026-01-01T00:05:00" wStP "a1"
        (some "mallory") none).2.pending_approvals "a1").map MemRec.status =
      (lookupA (approve_request wRole wOwners "2026-01-01T00:05:00" wStP "a1"
        (some "eve") none).2.pending_approvals "a1").map MemRec.status ∧
    (reject_request wRole wOwners "2026-01-01T00:05:00" wStP "a1"
        (some "mallory") none).1.result =
      (reject_request wRole wOwners "2026-01-01T00:05:00" wStP "a1"
        (some "eve") none).1.result ∧
    (lookupA (reject_request wRole wOwners "2026-01-01T00:05:00" wStP "a1"
        (some "mallory") none).2.pending_approvals "a1").map MemRec.status =
      (lookupA (reject_request wRole wOwners "2026-01-01T00:05:00" wStP "a1"
        (some "eve") none).2.pending_approvals "a1").map MemRec.status ∧
    (∀ (p : Option String) (rec : MemRec), (p = none ∨ p = some "") →
      lookupA wStP.pending_approvals "a1" = some rec →
      rec.status = "pending" → "a1" ∉ wStP.processing_approvals →
      (lookupA (approve_request wRole wOwners "2026-01-01T00:05:00" wStP "a1"
          p none).2.pending_approvals "a1").map MemRec.approver =
        some (some (firstOwnerOrAdmin wOwners rec.project))) ∧
    (lookupA wStP.pending_approvals "a1" = none →
      resolveApprover wOwners wStP "a1" none = "admin") :=
  web_endpoints_apply_without_permission_check wRole wOwners
    "2026-01-01T00:05:00" wStP "a1" none (some "mallory") (some "eve")

/-- C4 (code bug): when `maxWait` elapses with the durable row still
pending, `approval_wait` calls
`update_approval_status(id, timeout, "system", ...)` (api_handler.py lines
595-597, under the inline comment "确实超时，更新数据库和内存状态"), but
that call is refused with `LOCK_REQUIRED` because the row is not
advisory-locked by `system` — the wait path never acquires the lock
(database_service.py line 432) — and the handler ignores the returned
failure.  The durable status therefore remains `pending` even though the
waiter returns a timeout result, contradicting the claimed durable timeout
transition. -/
theorem wait_timeout_durable_write_refused :
    (waitTimeoutFallback "2026-01-01T00:31:00" wDb wStP "a1" 1800).1 =
      WaitResult.timedOut 1800 ∧
    (lookupA (waitTimeoutFallback "2026-01-01T00:31:00" wDb wStP "a1"
      1800).2.1 "a1").map DbRec.status = some "pending" ∧
    (update_approval_status wDb "a1" "timeout" "system" "system" "审批超时"
      "2026-01-01T00:31:00").1.code = "LOCK_REQUIRED" ∧
    (update_approval_status wDb "a1" "timeout" "system" "system" "审批超时"
      "2026-01-01T00:31:00").1.success = false := by decide

theorem sliceBlock_le_one (o : WaitObs)
    (h : ∀ rec, o.mem = some rec → rec.status = "pending" →
      o.eventPresent = true) :
    sliceBlock o ≤ 1 := by
  unfold sliceBlock
  cases hm : o.mem with
  | none =>
    by_cases he : o.eventPresent <;> by_cases hs : o.eventIsSet <;>
      simp [he, hs]
  | some rec =>
    by_cases hp : rec.status = "pending"
    · have he := h rec hm hp
      simp only [hp, ne_eq, not_true_eq_false, ite_false, if_neg,
        not_false_eq_true, he, ite_true, if_pos]
      by_cases hs : o.eventIsSet <;> simp [hs]
    · simp [hp]

theorem waitLoopAux_blocked_le (obs : Nat → WaitObs)
    (hinv : ∀ i rec, (obs i).mem = some rec → rec.status = "pending" →
      (obs i).eventPresent = true) :
    ∀ fuel waited blocked,
      (waitLoopAux obs fuel waited blocked).2 ≤ blocked + fuel := by
  intro fuel
  induction fuel with
  | zero => intro waited blocked; simp [waitLoopAux]
  | succ n ih =>
    intro waited blocked
    have hsb : sliceBlock (obs waited) ≤ 1 :=
      sliceBlock_le_one (obs waited) (fun rec h hp => hinv waited rec h hp)
    unfold waitLoopAux
    cases hm : (obs waited).mem with
    | none =>
      simp only [hm]
      have := ih (waited + 1) (blocked + sliceBlock (obs waited))
      omega
    | some rec =>
      by_cases hp : rec.status ≠ "pending"
      · simp only [hm]
        rw [if_pos hp]
        omega
      · simp only [hm]
        rw [if_neg hp]
        have := ih (waited + 1) (blocked + sliceBlock (obs waited))
        omega

theorem waitLoopAux_decision_nonpending (obs : Nat → WaitObs) :
    ∀ fuel waited blocked rec w,
      (waitLoopAux obs fuel waited blocked).1 = LoopExit.decision rec w →
      rec.status ≠ "pending" := by
  intro fuel
  induction fuel with
  | zero => intro waited blocked rec w h; simp [waitLoopAux] at h
  | succ n ih =>
    intro waited blocked rec w h
    unfold waitLoopAux at h
    cases hm : (obs waited).mem with
    | none =>
      simp only [hm] at h
      exact ih _ _ _ _ h
    | some r =>
      by_cases hp : r.status ≠ "pending"
      · simp only [hm] at h
        rw [if_pos hp] at h
        have h2 : LoopExit.decision r waited = LoopExit.decision rec w := h
        obtain ⟨h1, _⟩ := LoopExit.decision.inj h2
        rw [← h1]
        exact hp
      · simp only [hm] at h
        rw [if_neg hp] at h
        exact ih _ _ _ _ h

theorem fallback_shape (now : String) (db : DbState) (st : HState)
    (id : String) (w : Nat) :
    (waitTimeoutFallback now db st id w).1 = WaitResult.timedOut w ∨
    (∃ row : DbRec, lookupA db id = some row ∧ row.status ≠ "pending" ∧
      (waitTimeoutFallback now db st id w).1 =
        WaitResult.decision row.status row.approver row.approver_role
          row.comment w) := by
  unfold waitTimeoutFallback
  cases h : lookupA db id with
  | none => left; simp [h]
  | some row =>
    by_cases hp : row.status = "pending"
    · left; simp [h, hp]
    · right; exact ⟨row, rfl, hp, by simp [h, hp]⟩

/-- C2: for every approval and every `maxWait`, the wait of
`approval_wait` blocks for at most `maxWait + 1` polling slices — under the
program invariant that the event object is registered whenever the record
is still pending (they are created together at api_handler.py lines
400-403 and evicted together) — and the returned value is either a decision
whose status is non-pending (read back from authoritative state) or a
timeout result; it never blocks past the bound even if no decision ever
arrives. -/
theorem wait_returns_within_bound_decision_or_timeout (obs : Nat → WaitObs)
    (maxWait : Nat) (now : String) (db : DbState) (st : HState) (id : String)
    (hinv : ∀ i rec, (obs i).mem = some rec → rec.status = "pending" →
      (obs i).eventPresent = true) :
    (approvalWaitRun obs maxWait now db st id).1.2 ≤ maxWait + 1 ∧
    ((∃ s a r c w, (approvalWaitRun obs maxWait now db st id).1.1 =
        WaitResult.decision s a r c w ∧ s ≠ "pending") ∨
      (∃ w, (approvalWaitRun obs maxWait now db st id).1.1 =
        WaitResult.timedOut w)) := by
  have hble : (waitLoopAux obs maxWait 0 0).2 ≤ maxWait := by
    have := waitLoopAux_blocked_le obs hinv maxWait 0 0
    omega
  unfold approvalWaitRun
  cases hres : waitLoopAux obs maxWait 0 0 with
  | mk ex blocked =>
    rw [hres] at hble
    cases ex with
    | decision rec w =>
      refine ⟨by simpa using Nat.le_succ_of_le hble, ?_⟩
      left
      refine ⟨rec.status, rec.approver, rec.approver_role, rec.comment, w,
        by simp, ?_⟩
      exact waitLoopAux_decision_nonpending obs maxWait 0 0 rec w
        (by rw [hres])
    | fallthrough w =>
      refine ⟨by simpa using Nat.le_succ_of_le hble, ?_⟩
      rcases fallback_shape now db st id w with h | ⟨row, _, hnp, hdec⟩
      · right
        exact ⟨w, by simp [h]⟩
      · left
        exact ⟨row.status, row.approver, row.approver_role, row.comment, w,
          by simp [hdec], hnp⟩

/-- Witness for C2 on the concrete trace where alice approves at the third
poll, with `maxWait` = 5 slices. -/
theorem wait_returns_within_bound_decision_or_timeout_witness :
    (∀ i rec, (wWaitTrace i).mem = some rec → rec.status = "pending" →
      (wWaitTrace i).eventPresent = true) ∧
    ((approvalWaitRun wWaitTrace 5 "2026-01-01T00:05:00" wDb wStP
        "a1").1.2 ≤ 5 + 1 ∧
      ((∃ s a r c w, (approvalWaitRun wWaitTrace 5 "2026-01-01T00:05:00" wDb
          wStP "a1").1.1 = WaitResult.decision s a r c w ∧ s ≠ "pending") ∨
        (∃ w, (approvalWaitRun wWaitTrace 5 "2026-01-01T00:05:00" wDb wStP
          "a1").1.1 = WaitResult.timedOut w))) :=
  ⟨fun i rec _ _ => by by_cases hi : i < 2 <;> simp [wWaitTrace, hi],
    wait_returns_within_bound_decision_or_timeout wWaitTrace 5
      "2026-01-01T00:05:00" wDb wStP "a1"
      (fun i rec _ _ => by by_cases hi : i < 2 <;> simp [wWaitTrace, hi])⟩

theorem lookupA_mem {α : Type} {m : List (String × α)} {k : String} {v : α}
    (h : lookupA m k = some v) : (k, v) ∈ m := by
  induction m with
  | nil => simp [lookupA] at h
  | cons p rest ih =>
    obtain ⟨k', v'⟩ := p
    by_cases hk : k' = k
    · subst hk
      unfold lookupA at h
      rw [if_pos rfl] at h
      injection h with h2
      subst h2
      exact List.mem_cons_self _ _
    · simp only [lookupA, if_neg hk] at h
      exact List.mem_cons_of_mem _ (ih h)

theorem lookup_of_nodup_mem {α : Type} {m : List (String × α)} {k : String}
    {v : α} (hnd : (m.map Prod.fst).Nodup) (hm : (k, v) ∈ m) :
    lookupA m k = some v := by
  induction m with
  | nil => simp at hm
  | cons p rest ih =>
    obtain ⟨k', v'⟩ := p
    simp only [List.map_cons, List.nodup_cons] at hnd
    rcases List.mem_cons.mp hm with h | h
    · rw [← h]
      simp [lookupA]
    · have hk : k' ≠ k := by
        intro he
        subst he
        exact hnd.1 (List.mem_map.mpr ⟨(k', v), h, rfl⟩)
      simp only [lookupA, if_neg hk]
      exact ih hnd.2 h

theorem lookupA_filter_keep {α : Type} (q : String × α → Bool)
    (m : List (String × α)) (k : String) (v : α)
    (h : lookupA m k = some v) (hq : q (k, v) = true) :
    lookupA (m.filter q) k = some v := by
  induction m with
  | nil => simp [lookupA] at h
  | cons p rest ih =>
    obtain ⟨k', v'⟩ := p
    by_cases hk : k' = k
    · subst hk
      unfold lookupA at h
      rw [if_pos rfl] at h
      injection h with h2
      subst h2
      rw [List.filter_cons, if_pos hq]
      unfold lookupA
      rw [if_pos rfl]
    · simp only [lookupA, if_neg hk] at h
      rw [List.filter_cons]
      by_cases hqv : q (k', v') = true
      · rw [if_pos hqv]
        simp only [lookupA, if_neg hk]
        exact ih h
      · rw [if_neg hqv]
        exact ih h

theorem lookupA_filter_none {α : Type} (q : String × α → Bool)
    (m : List (String × α)) (k : String)
    (hq : ∀ v, q (k, v) = false) :
    lookupA (m.filter q) k = none := by
  induction m with
  | nil => simp [lookupA]
  | cons p rest ih =>
    obtain ⟨k', v'⟩ := p
    by_cases hk : k' = k
    · subst hk
      rw [List.filter_cons, hq v']
      simpa using ih
    · rw [List.filter_cons]
      by_cases hqv : q (k', v') = true
      · rw [if_pos hqv]
        simp only [lookupA, if_neg hk]
        exact ih
      · rw [if_neg hqv]
        exact ih

/-- C9: the periodic cleanup sweep never evicts a record whose created-at
is missing or cannot be parsed (the parse failure is caught and the record
retained), while a record whose parseable created-at is older than the
two-hour retention window is evicted together with its wake-signal event
object.  The key uniqueness hypothesis reflects that the registry is a
Python dict. -/
theorem cleanup_retains_unparseable_evicts_expired
    (parse : String → Option Int) (now : Int) (st : HState) (id : String)
    (rec : MemRec)
    (hnd : (st.pending_approvals.map Prod.fst).Nodup)
    (hrec : lookupA st.pending_approvals id = some rec) :
    ((rec.created_at = "" ∨ parse rec.created_at = none) →
      lookupA (cleanupSweep parse now st).pending_approvals id = some rec) ∧
    (∀ c : Int, parse rec.created_at = some c → rec.created_at ≠ "" →
      now - c > 7200 →
      lookupA (cleanupSweep parse now st).pending_approvals id = none ∧
      lookupA (cleanupSweep parse now st).approval_events id = none) := by
  constructor
  · intro hbad
    have hexp : isExpiredRec parse now rec = false := by
      unfold isExpiredRec
      rcases hbad with hb | hb
      · simp [hb]
      · by_cases he : rec.created_at = ""
        · simp [he]
        · simp [he, hb]
    have hnot : id ∉
        (st.pending_approvals.filter
          (fun p => isExpiredRec parse now p.2)).map Prod.fst := by
      intro hmem
      obtain ⟨⟨k2, v2⟩, hin, hfst⟩ := List.mem_map.mp hmem
      obtain ⟨hin2, hq⟩ := List.mem_filter.mp hin
      have : lookupA st.pending_approvals id = some v2 := by
        have hk2 : k2 = id := hfst
        subst hk2
        exact lookup_of_nodup_mem hnd hin2
      rw [hrec] at this
      obtain rfl : rec = v2 := Option.some.injEq .. |>.mp this
      rw [hexp] at hq
      exact Bool.false_ne_true hq
    unfold cleanupSweep
    exact lookupA_filter_keep _ st.pending_approvals id rec hrec
      (by simp [hnot])
  · intro c hc he hage
    have hexp : isExpiredRec parse now rec = true := by
      unfold isExpiredRec
      simp [he, hc, hage]
    have hmem : id ∈
        (st.pending_approvals.filter
          (fun p => isExpiredRec parse now p.2)).map Prod.fst :=
      List.mem_map.mpr ⟨(id, rec),
        List.mem_filter.mpr ⟨lookupA_mem hrec, hexp⟩, rfl⟩
    unfold cleanupSweep
    constructor
    · exact lookupA_filter_none _ st.pending_approvals id
        (fun v => by simp [hmem])
    · exact lookupA_filter_none _ st.approval_events id
        (fun v => by simp [hmem])

/-- Witness for C9: with a parse function that fails on `wPend`'s
created-at the record survives the sweep; with one that parses it to
instant 0 and a clock 10000 s later, record and event are both evicted. -/
theorem cleanup_retains_unparseable_evicts_expired_witness :
    ((wStP.pending_approvals.map Prod.fst).Nodup ∧
      lookupA wStP.pending_approvals "a1" = some wPend) ∧
    (((wPend.created_at = "" ∨ (fun _ => none : String → Option Int)
        wPend.created_at = none) →
      lookupA (cleanupSweep (fun _ => none) 10000
        wStP).pending_approvals "a1" = some wPend) ∧
    (∀ c : Int, (fun _ => none : String → Option Int) wPend.created_at =
        some c → wPend.created_at ≠ "" → 10000 - c > 7200 →
      lookupA (cleanupSweep (fun _ => none) 10000
        wStP).pending_approvals "a1" = none ∧
      lookupA (cleanupSweep (fun _ => none) 10000
        wStP).approval_events "a1" = none)) ∧
    (((wPend.created_at = "" ∨ (fun _ => some 0 : String → Option Int)
        wPend.created_at = none) →
      lookupA (cleanupSweep (fun _ => some 0) 10000
        wStP).pending_approvals "a1" = some wPend) ∧
    (∀ c : Int, (fun _ => some 0 : String → Option Int) wPend.created_at =
        some c → wPend.created_at ≠ "" → 10000 - c > 7200 →
      lookupA (cleanupSweep (fun _ => some 0) 10000
        wStP).pending_approvals "a1" = none ∧
      lookupA (cleanupSweep (fun _ => some 0) 10000
        wStP).approval_events "a1" = none)) :=
  ⟨⟨by decide, by decide⟩,
    cleanup_retains_unparseable_evicts_expired (fun _ => none) 10000 wStP
      "a1" wPend (by decide) (by decide),
    cleanup_retains_unparseable_evicts_expired (fun _ => some 0) 10000 wStP
      "a1" wPend (by decide) (by decide)⟩

theorem cancel_idem (st : HState) (id : String) :
    cancelReminderTimer (cancelReminderTimer st id) id =
      cancelReminderTimer st id := by
  unfold cancelReminderTimer
  cases h : lookupA st.pending_approvals id with
  | none => simp [h, insS_idem, delS_idem]
  | some rec =>
    by_cases hp : rec.status = "pending"
    · simp [h, hp, lookupA_updA_self, updA_idem, insS_idem, delS_idem]
    · simp [h, hp, insS_idem, delS_idem]

theorem remLoop_fires_not_stopped (obs : Nat → RemObs) :
    ∀ fuel t count p, p ∈ (remLoop obs fuel t count).1 →
      stopCond (obs p.1) = false := by
  intro fuel
  induction fuel with
  | zero => intro t c p h; simp [remLoop] at h
  | succ n ih =>
    intro t c p h
    simp only [remLoop] at h
    by_cases hs : stopCond (obs t) = true
    · rw [if_pos hs] at h
      simp at h
    · rw [if_neg hs] at h
      have hs2 : stopCond (obs t) = false := by
        simpa using hs
      by_cases hre : remResolves (obs t) = true
      · rw [if_pos hre] at h
        simp at h
      · rw [if_neg hre] at h
        by_cases hc : c + 1 < 6
        · rw [if_pos hc] at h
          cases hw : interWait obs 150 (t + 1) with
          | none =>
            rw [hw] at h
            simp only [List.mem_singleton] at h
            rw [h]
            exact hs2
          | some t2 =>
            rw [hw] at h
            simp only [List.mem_cons] at h
            rcases h with h | h
            · rw [h]; exact hs2
            · exact ih t2 (c + 1) p h
        · rw [if_neg hc] at h
          simp only [List.mem_cons] at h
          rcases h with h | h
          · rw [h]; exact hs2
          · exact ih (t + 1) (c + 1) p h

theorem reminderTask_fires_not_stopped (obs : Nat → RemObs) :
    ∀ p ∈ (reminderTask obs).1, stopCond (obs p.1) = false := by
  unfold reminderTask
  cases hi : initialPhase obs 600 0 0 with
  | inl e => simp
  | inr t => exact fun p hp => remLoop_fires_not_stopped obs 6 t 0 p hp

theorem remLoop_counts (obs : Nat → RemObs) :
    ∀ fuel t count,
      ∃ k ≤ fuel, (remLoop obs fuel t count).1.map Prod.snd =
        List.range' (count + 1) k := by
  intro fuel
  induction fuel with
  | zero => intro t c; exact ⟨0, Nat.le_refl 0, by simp [remLoop]⟩
  | succ n ih =>
    intro t c
    by_cases hs : stopCond (obs t) = true
    · refine ⟨0, Nat.zero_le _, ?_⟩
      simp only [remLoop]
      rw [if_pos hs]
      simp
    · by_cases hre : remResolves (obs t) = true
      · refine ⟨0, Nat.zero_le _, ?_⟩
        simp only [remLoop]
        rw [if_neg hs, if_pos hre]
        simp
      · by_cases hc : c + 1 < 6
        · cases hw : interWait obs 150 (t + 1) with
          | none =>
            refine ⟨1, by omega, ?_⟩
            simp only [remLoop]
            rw [if_neg hs, if_neg hre, if_pos hc, hw]
            simp [List.range'_succ]
          | some t2 =>
            obtain ⟨k, hk, hmap⟩ := ih t2 (c + 1)
            refine ⟨k + 1, by omega, ?_⟩
            simp only [remLoop]
            rw [if_neg hs, if_neg hre, if_pos hc, hw]
            simp only [List.map_cons, hmap]
            rw [List.range'_succ]
        · obtain ⟨k, hk, hmap⟩ := ih (t + 1) (c + 1)
          refine ⟨k + 1, by omega, ?_⟩
          simp only [remLoop]
          rw [if_neg hs, if_neg hre, if_neg hc]
          simp only [List.map_cons, hmap]
          rw [List.range'_succ]

theorem interWait_surv (obs : Nat → RemObs)
    (h : ∀ u, stopCond (obs u) = false) :
    ∀ n t, interWait obs n t = some (t + n) := by
  intro n
  induction n with
  | zero => intro t; simp [interWait]
  | succ m ih =>
    intro t
    unfold interWait
    rw [if_neg (by simp [h t])]
    rw [ih (t + 1)]
    congr 1
    omega

theorem initialPhase_surv (obs : Nat → RemObs)
    (h : ∀ u, stopCond (obs u) = false)
    (h2 : ∀ u, dbResolvedObs (obs u) = false) :
    ∀ n i t, initialPhase obs n i t = .inr (t + n) := by
  intro n
  induction n with
  | zero => intro i t; simp [initialPhase]
  | succ m ih =>
    intro i t
    unfold initialPhase
    rw [if_neg (by simp [h t])]
    rw [if_neg (by simp [h2 t])]
    rw [ih (i + 1) (t + 1)]
    congr 1
    omega

theorem remLoop_exhausts (obs : Nat → RemObs)
    (h : ∀ u, stopCond (obs u) = false)
    (hrow : ∀ u, ∃ row, (obs u).db = some row ∧ row.status = "pending") :
    ∀ fuel t count,
      (remLoop obs fuel t count).1.length = fuel ∧
      (remLoop obs fuel t count).2 = .exhausted := by
  intro fuel
  induction fuel with
  | zero => intro t c; simp [remLoop]
  | succ n ih =>
    intro t c
    obtain ⟨row, hrw, hpend⟩ := hrow t
    have hre : remResolves (obs t) = false := by
      simp [remResolves, hrw, hpend]
    simp only [remLoop]
    rw [if_neg (by simp [h t]), if_neg (by simp [hre])]
    by_cases hc : c + 1 < 6
    · rw [if_pos hc, interWait_surv obs h 150 (t + 1)]
      have hr := ih (t + 1 + 150) (c + 1)
      simp [hr.1, hr.2]
    · rw [if_neg hc]
      have hr := ih (t + 1) (c + 1)
      simp [hr.1, hr.2]

/-- C5: after a transition (or a `_cancel_reminder_timer` call) at
observation time `k` — so that every later check sees a stop condition —
the reminder task emits no fire at or after `k`, even when it was mid-wait
at that moment (the inter-fire wait re-checks the conditions every two
seconds and returns without firing); and cancelling an already-cancelled
schedule is a no-op (`_cancel_reminder_timer` is idempotent). -/
theorem no_reminder_after_transition (obs : Nat → RemObs) (k : Nat)
    (hstop : ∀ j, k ≤ j → stopCond (obs j) = true) :
    (∀ p ∈ (reminderTask obs).1, p.1 < k) ∧
    (∀ (st : HState) (id : String),
      cancelReminderTimer (cancelReminderTimer st id) id =
        cancelReminderTimer st id) := by
  constructor
  · intro p hp
    by_contra hlt
    push_neg at hlt
    have h1 := reminderTask_fires_not_stopped obs p hp
    rw [hstop p.1 hlt] at h1
    exact Bool.true_eq_false.mp h1
  · intro st id
    exact cancel_idem st id

/-- Witness for C5 on the trace where the transition lands at
observation 601. -/
theorem no_reminder_after_transition_witness :
    (∀ j, 601 ≤ j → stopCond (wRemTraceStop601 j) = true) ∧
    ((∀ p ∈ (reminderTask wRemTraceStop601).1, p.1 < 601) ∧
      (∀ (st : HState) (id : String),
        cancelReminderTimer (cancelReminderTimer st id) id =
          cancelReminderTimer st id)) :=
  ⟨fun j hj => by
      unfold wRemTraceStop601
      rw [if_neg (by omega)]
      rfl,
    no_reminder_after_transition wRemTraceStop601 601
      (fun j hj => by
        unfold wRemTraceStop601
        rw [if_neg (by omega)]
        rfl)⟩

/-- C6: over every possible interleaving, the reminder counts carried by
the fired notifications are exactly 1, 2, …, k for some k ≤ 6 — so the
count is monotonically non-decreasing and capped at the configured maximum
of 6 — and on a run where no decision ever arrives (nothing stops the task
and every durable read returns a pending row) the task fires exactly 6
reminders and then exits on its own (`exhausted`), forcing no status
change (the task's outputs are notifications only). -/
theorem reminder_count_monotone_capped (obs : Nat → RemObs) :
    (∃ k ≤ 6, (reminderTask obs).1.map Prod.snd = List.range' 1 k) ∧
    ((∀ u, stopCond (obs u) = false) →
      (∀ u, ∃ row, (obs u).db = some row ∧ row.status = "pending") →
      (reminderTask obs).1.length = 6 ∧
        (reminderTask obs).2 = RemExit.exhausted) := by
  constructor
  · unfold reminderTask
    cases hi : initialPhase obs 600 0 0 with
    | inl e => exact ⟨0, by omega, by simp⟩
    | inr t => simpa using remLoop_counts obs 6 t 0
  · intro h1 h3
    have hdbr : ∀ u, dbResolvedObs (obs u) = false := by
      intro u
      obtain ⟨row, hrw, hpend⟩ := h3 u
      unfold dbResolvedObs
      simp [hrw, hpend]
    unfold reminderTask
    rw [initialPhase_surv obs h1 hdbr 600 0 0]
    exact remLoop_exhausts obs h1 h3 6 (0 + 600) 0

/-- Witness for C6 on the quiet trace (no decision ever arrives). -/
theorem reminder_count_monotone_capped_witness :
    (∃ k ≤ 6, (reminderTask wRemTraceQuiet).1.map Prod.snd =
      List.range' 1 k) ∧
    ((reminderTask wRemTraceQuiet).1.length = 6 ∧
      (reminderTask wRemTraceQuiet).2 = RemExit.exhausted) :=
  ⟨(reminder_count_monotone_capped wRemTraceQuiet).1,
    (reminder_count_monotone_capped wRemTraceQuiet).2
      (fun _ => rfl) (fun _ => ⟨wDbPend, rfl, rfl⟩)⟩

/-- C8 counterexample: a Durable Store failure during the main reminder
loop does not let the task "continue to its next check or fire".
`get_approval` converts every exception to `None` (database_service.py
lines 273-275), and the main loop treats a `None` read as a deleted record
and returns (api_handler.py lines 1933-1938).  On the trace whose durable
reads start failing exactly at the first main-loop check, the task
terminates at once with zero reminders, while on the otherwise identical
healthy trace it would have gone on to fire six — so the failed read ended
the task instead of being retried at the next cycle. -/
theorem reminder_task_exits_on_store_failure :
    reminderTask wRemTraceDbNone = ([], RemExit.dbResolved) ∧
    (reminderTask wRemTraceQuiet).1.length = 6 := by
  constructor
  · have h1 : ∀ u, stopCond (wRemTraceDbNone u) = false := by
      intro u
      unfold wRemTraceDbNone
      by_cases hu : u < 600
      · rw [if_pos hu]; rfl
      · rw [if_neg hu]; rfl
    have h2 : ∀ u, dbResolvedObs (wRemTraceDbNone u) = false := by
      intro u
      unfold wRemTraceDbNone
      by_cases hu : u < 600
      · rw [if_pos hu]; rfl
      · rw [if_neg hu]; rfl
    unfold reminderTask
    rw [initialPhase_surv wRemTraceDbNone h1 h2 600 0 0]
    rfl
  · have h1 : ∀ u, stopCond (wRemTraceQuiet u) = false := fun _ => rfl
    have h2 : ∀ u, dbResolvedObs (wRemTraceQuiet u) = false := fun _ => rfl
    unfold reminderTask
    rw [initialPhase_surv wRemTraceQuiet h1 h2 600 0 0]
    exact (remLoop_exhausts wRemTraceQuiet h1
      (fun _ => ⟨wDbPend, rfl, rfl⟩) 6 (0 + 600) 0).1

/-- C8 amended: a Durable Store failure never crashes the background
reminder task abnormally, because `get_approval` catches every exception
and returns `None`, so no exception ever reaches the thread; during the
initial five-minute wait a failed read is skipped and the task continues
to its next check; but at a main-loop check a failed (`None`) read makes
the task terminate cleanly — treated as if the record had been deleted —
rather than continue to its next check or fire, so the failure is not
retried on the next cycle. -/
theorem reminder_store_failure_no_crash_but_clean_exit (obs : Nat → RemObs)
    (hs : ∀ u, stopCond (obs u) = false)
    (hdb : ∀ u, (obs u).db = none ∨
      ∃ row, (obs u).db = some row ∧ row.status = "pending") :
    (∀ n i t, initialPhase obs n i t = Sum.inr (t + n)) ∧
    (∀ fuel t count, (obs t).db = none →
      remLoop obs (fuel + 1) t count = ([], RemExit.dbResolved)) := by
  constructor
  · have h2 : ∀ u, dbResolvedObs (obs u) = false := by
      intro u
      rcases hdb u with h | ⟨row, hrw, hpend⟩
      · unfold dbResolvedObs
        rw [h]
      · unfold dbResolvedObs
        rw [hrw]
        simp [hpend]
    exact initialPhase_surv obs hs h2
  · intro fuel t count hnone
    have hre : remResolves (obs t) = true := by
      unfold remResolves
      rw [hnone]
    simp only [remLoop]
    rw [if_neg (by simp [hs t]), if_pos hre]

/-- Witness for the amended C8 on the trace whose durable reads fail from
observation 600 on: the initial phase always completes, and the main loop
exits cleanly with no fire at the failing check. -/
theorem reminder_store_failure_no_crash_but_clean_exit_witness :
    ((∀ u, stopCond (wRemTraceDbNone u) = false) ∧
      (∀ u, (wRemTraceDbNone u).db = none ∨
        ∃ row, (wRemTraceDbNone u).db = some row ∧
          row.status = "pending")) ∧
    ((∀ n i t, initialPhase wRemTraceDbNone n i t = Sum.inr (t + n)) ∧
      (∀ fuel t count, (wRemTraceDbNone t).db = none →
        remLoop wRemTraceDbNone (fuel + 1) t count =
          ([], RemExit.dbResolved))) :=
  ⟨⟨fun u => by
      unfold wRemTraceDbNone
      by_cases hu : u < 600
      · rw [if_pos hu]; rfl
      · rw [if_neg hu]; rfl,
    fun u => by
      unfold wRemTraceDbNone
      by_cases hu : u < 600
      · rw [if_pos hu]
        exact Or.inr ⟨wDbPend, rfl, rfl⟩
      · rw [if_neg hu]
        exact Or.inl rfl⟩,
    reminder_store_failure_no_crash_but_clean_exit wRemTraceDbNone
      (fun u => by
        unfold wRemTraceDbNone
        by_cases hu : u < 600
        · rw [if_pos hu]; rfl
        · rw [if_neg hu]; rfl)
      (fun u => by
        unfold wRemTraceDbNone
        by_cases hu : u < 600
        · rw [if_pos hu]
          exact Or.inr ⟨wDbPend, rfl, rfl⟩
        · rw [if_neg hu]
          exact Or.inl rfl)⟩

end JenkinsApproval
